import Mathlib

/-!
Verification of the `financialStatements` backend (`app/parser.py`,
`app/categorizer.py`, `app/metrics.py`, `app/main.py`) against its
natural-language specification.

Conventions of the shallow embedding:
* Python `Decimal` money amounts always carry exactly two decimal places
  (the amount regex demands `\.\d\d`), so parsed monetary amounts are
  embedded as integer *cents* (`ℤ`); `100.00` is `10000`.
* `float` amounts and FX rates of the persisted layer are embedded as `ℚ`.
* Regex scanning is embedded as character-level scanners over `List Char`
  that implement exactly the matching discipline of the Python patterns
  (leftmost match, first alternative, greedy with the backtracking
  behaviour analysed per pattern in the comments below).
* Fallible Python code (`raise`/`try`) is embedded with `Except`/`Option`.
-/

set_option maxHeartbeats 1000000

namespace FS

/-! ## Character helpers -/

/-- Whitespace class of Python's regex `\s` (the subset that can occur in the
normalized statement lines: space, tab, newline, carriage return). -/
def isWs (c : Char) : Bool := c = ' ' || c = '\t' || c = '\n' || c = '\r'

/-- Separator class `[\s,]` of the thousands-group part of `AMOUNT_PATTERN`. -/
def isSepChar (c : Char) : Bool := isWs c || c = ','

def digitVal (c : Char) : Nat := c.toNat - '0'.toNat

/-- Maximal leading run of decimal digits, and the rest. -/
def takeDigits : List Char → List Char × List Char
  | [] => ([], [])
  | c :: cs =>
    if c.isDigit then
      let p := takeDigits cs
      (c :: p.1, p.2)
    else ([], c :: cs)

/-- Maximal leading run of ASCII letters, and the rest. -/
def takeAlpha : List Char → List Char × List Char
  | [] => ([], [])
  | c :: cs =>
    if c.isAlpha then
      let p := takeAlpha cs
      (c :: p.1, p.2)
    else ([], c :: cs)

/-- Maximal leading run of whitespace, and the rest. -/
def takeWs : List Char → List Char × List Char
  | [] => ([], [])
  | c :: cs =>
    if isWs c then
      let p := takeWs cs
      (c :: p.1, p.2)
    else ([], c :: cs)

def digitsToNat (ds : List Char) : Nat := ds.foldl (fun a c => a * 10 + digitVal c) 0

/-- Substring test (`needle in haystack` of Python). -/
def strContains (hay needle : List Char) : Bool :=
  hay.tails.any (fun t => needle.isPrefixOf t)

def containsAny (hay : List Char) (needles : List String) : Bool :=
  needles.any (fun n => strContains hay n.data)

def toLowerStr (s : String) : String := String.mk (s.data.map Char.toLower)

/-- Python `str.split(sep)` for a one-character separator: splits on every
occurrence and keeps empty pieces. -/
def splitChar (sep : Char) : List Char → List (List Char)
  | [] => [[]]
  | c :: cs =>
    let r := splitChar sep cs
    if c = sep then [] :: r
    else
      match r with
      | [] => [[c]]
      | p :: ps => (c :: p) :: ps

def splitString (sep : Char) (s : String) : List String :=
  (splitChar sep s.data).map String.mk

/-! ## Amount extraction

`AMOUNT_PATTERN = (?P<currency>[A-Z]{3}|£|€|\$)?\s*(?P<amount>\d{1,3}(?:[\s,]\d{3})*(?:\.\d{2})|\d+\.\d{2})`
run with `finditer`, each match's `amount` group cleaned of spaces/commas and
read as a `Decimal` (always two decimals, hence integer cents below — see header).

The optional currency prefix is dropped from the embedding: it contains no
digits, so it never overlaps an amount, never changes which amount strings
are captured and never changes the resumption point past a match.

Backtracking analysis used to make the scanners below deterministic:
* first alternative `\d{1,3}([\s,]\d{3})*\.\d{2}`: retrying it with fewer
  than the maximal (≤3) leading digits puts a digit right after the taken
  digits, where neither `[\s,]` nor `\.` can match, so only the maximal run
  can succeed; dropping greedy `([\s,]\d{3})` repetitions lands on the
  separator character, where `\.` cannot match, so if `\.\d{2}` fails after
  the greedy repetitions the whole alternative fails;
* second alternative `\d+\.\d{2}`: same argument for `\d+`.
-/

/-- One thousands-group repetition step: `([\s,]\d{3})*`, greedy, refusing a
group whose three digits are followed by a fourth digit (then `\d{3}` cannot
be completed by the regex either, see the analysis above). Returns the collected
group digits and the rest. -/
def takeSepGroups : List Char → List Char × List Char
  | sep :: d1 :: d2 :: d3 :: rest =>
    if isSepChar sep && d1.isDigit && d2.isDigit && d3.isDigit then
      match rest with
      | r :: _ =>
        if r.isDigit then ([], sep :: d1 :: d2 :: d3 :: rest)
        else
          let p := takeSepGroups rest
          (d1 :: d2 :: d3 :: p.1, p.2)
      | [] => ([d1, d2, d3], [])
    else ([], sep :: d1 :: d2 :: d3 :: rest)
  | other => ([], other)

/-- Exactly `\.\d{2}` (no lookahead: a third digit may follow the match). -/
def takeDotDD : List Char → Option (Char × Char × List Char)
  | '.' :: a :: b :: rest => if a.isDigit && b.isDigit then some (a, b, rest) else none
  | _ => none

def centsOf (intDigits : List Char) (a b : Char) : ℤ :=
  (digitsToNat intDigits * 100 + digitVal a * 10 + digitVal b : Nat)

/-- First alternative of the amount pattern at this position. -/
def matchAlt1 (cs : List Char) : Option (ℤ × List Char) :=
  let p := takeDigits cs
  if p.1.length = 0 || 3 < p.1.length then none
  else
    let g := takeSepGroups p.2
    match takeDotDD g.2 with
    | some (a, b, rest) => some (centsOf (p.1 ++ g.1) a b, rest)
    | none => none

/-- Second alternative `\d+\.\d{2}` at this position. -/
def matchAlt2 (cs : List Char) : Option (ℤ × List Char) :=
  let p := takeDigits cs
  if p.1.length = 0 then none
  else
    match takeDotDD p.2 with
    | some (a, b, rest) => some (centsOf p.1 a b, rest)
    | none => none

def matchAmountAt (cs : List Char) : Option (ℤ × List Char) :=
  match matchAlt1 cs with
  | some r => some r
  | none => matchAlt2 cs

/-- Non-overlapping left-to-right scan (`finditer`); the fuel is the string
length, enough because every step consumes at least one character. -/
def scanAmounts : Nat → List Char → List ℤ
  | 0, _ => []
  | _, [] => []
  | fuel + 1, c :: cs =>
    match matchAmountAt (c :: cs) with
    | some (v, rest) => v :: scanAmounts fuel rest
    | none => scanAmounts fuel cs

/-- `_extract_amounts` of `parser.py`, in cents. -/
def extractAmounts (s : String) : List ℤ := scanAmounts s.data.length s.data

/-! ## Date line and date parsing

`DATE_LINE = ^(\d{1,2})\s+([A-Za-z]{3,4})\s+(\d{4})\s+`. Backtracking note:
shortening any greedy bounded run leaves the following character of the same
class, on which the next `\s+` cannot match, so each run must be maximal and
of the stated length.
-/

/-- Match `DATE_LINE` at the start of a line; returns the day, month-word and
year capture groups. -/
def matchDateLine (line : String) : Option (List Char × List Char × List Char) :=
  let d := takeDigits line.data
  if d.1.length = 0 || 2 < d.1.length then none
  else
    let w1 := takeWs d.2
    if w1.1.length = 0 then none
    else
      let m := takeAlpha w1.2
      if m.1.length < 3 || 4 < m.1.length then none
      else
        let w2 := takeWs m.2
        if w2.1.length = 0 then none
        else
          let y := takeDigits w2.2
          if y.1.length ≠ 4 then none
          else
            let w3 := takeWs y.2
            if w3.1.length = 0 then none else some (d.1, m.1, y.1)

structure PDate where
  year : Nat
  month : Nat
  day : Nat
  deriving Repr, DecidableEq

/-- Month names `dateutil` accepts that fit the 3–4 letter capture group. -/
def monthTable : List (String × Nat) :=
  [("jan", 1), ("feb", 2), ("mar", 3), ("apr", 4), ("may", 5), ("jun", 6),
   ("jul", 7), ("aug", 8), ("sep", 9), ("oct", 10), ("nov", 11), ("dec", 12),
   ("june", 6), ("july", 7), ("sept", 9)]

def isLeapYear (y : Nat) : Bool := (y % 4 = 0 && y % 100 ≠ 0) || y % 400 = 0

def daysInMonth (y m : Nat) : Nat :=
  if m = 2 then (if isLeapYear y then 29 else 28)
  else if m = 4 || m = 6 || m = 9 || m = 11 then 30
  else 31

/-- Day-first parse of the three captured date tokens, modelling
`dateutil.parser.parse(..., dayfirst=True).date()`: the month word is matched
case-insensitively against known month names and the day must exist in the
month, otherwise the parse raises (here: `Except.error`). -/
def parseDateTokens (d m y : List Char) : Except String PDate :=
  match (monthTable.lookup (String.mk (m.map Char.toLower))) with
  | none => .error "Unknown month name"
  | some mo =>
    let dn := digitsToNat d
    let yn := digitsToNat y
    if dn = 0 || daysInMonth yn mo < dn then .error "day is out of range for month"
    else .ok ⟨yn, mo, dn⟩

/-! ## FX rate fragment

`FX_RATE_PATTERN = FX Rate\s+([A-Z]{3})\s+1\s*=\s*([A-Z]{3})\s*([0-9.,]+)`,
searched anywhere in the chunk (`re.search`: first position wins). -/

def isUpperAZ (c : Char) : Bool := 'A' ≤ c && c ≤ 'Z'

def isRateChar (c : Char) : Bool := c.isDigit || c = '.' || c = ','

def takeRateChars : List Char → List Char × List Char
  | [] => ([], [])
  | c :: cs =>
    if isRateChar c then
      let p := takeRateChars cs
      (c :: p.1, p.2)
    else ([], c :: cs)

def takeUpper3 : List Char → Option (List Char × List Char)
  | a :: b :: c :: rest =>
    if isUpperAZ a && isUpperAZ b && isUpperAZ c && !(match rest with
      | r :: _ => isUpperAZ r
      | [] => false) then some ([a, b, c], rest)
    else none
  | _ => none

/-- Try the FX-rate pattern at this exact position. -/
def fxMatchAt (cs : List Char) : Option (String × String × List Char) :=
  match cs with
  | 'F' :: 'X' :: ' ' :: 'R' :: 'a' :: 't' :: 'e' :: rest =>
    let w1 := takeWs rest
    if w1.1.length = 0 then none
    else
      match takeUpper3 w1.2 with
      | none => none
      | some (base, r2) =>
        let w2 := takeWs r2
        if w2.1.length = 0 then none
        else
          match w2.2 with
          | '1' :: r3 =>
            let w3 := takeWs r3
            match w3.2 with
            | '=' :: r4 =>
              let w4 := takeWs r4
              match takeUpper3 w4.2 with
              | none => none
              | some (quote, r5) =>
                let w5 := takeWs r5
                let rc := takeRateChars w5.2
                if rc.1.length = 0 then none
                else some (String.mk base, String.mk quote, rc.1)
            | _ => none
          | _ => none
  | _ => none

/-- Leftmost `re.search` of the FX pattern. -/
def fxSearch : List Char → Option (String × String × List Char)
  | [] => none
  | c :: cs =>
    match fxMatchAt (c :: cs) with
    | some r => some r
    | none => fxSearch cs

/-- Read the raw rate group as Python's `Decimal(raw.replace(",", ""))`:
mantissa and decimal-place count; `none` when `Decimal` would raise (no
digits, or more than one dot). -/
def parseDecimal (raw : List Char) : Option (ℤ × ℕ) :=
  let cs := raw.filter (fun c => !(c = ','))
  let p := takeDigits cs
  match p.2 with
  | [] => if p.1.length = 0 then none else some ((digitsToNat p.1 : ℤ), 0)
  | '.' :: rest =>
    let q := takeDigits rest
    if !q.2.isEmpty then none
    else if p.1.length = 0 && q.1.length = 0 then none
    else some ((digitsToNat (p.1 ++ q.1) : ℤ), q.1.length)
  | _ => none

def decToRat (m : ℤ) (e : ℕ) : ℚ := (m : ℚ) / (10 : ℚ) ^ e

/-- Currency-pair rule of `_parse_transaction_chunk` lines 146–158: use the
rate for (GBP, RON), invert it for (RON, GBP) guarding zero, else none.
Python inverts with 28-significant-digit `Decimal` division; the inversion is
embedded as the exact rational 1/r (no claim exercises the inverted branch,
and the two differ by less than 10^-27). -/
def applyFxRule : Option (String × String × List Char) → Option ℚ
  | none => none
  | some (base, quote, raw) =>
    match parseDecimal raw with
    | none => none
    | some (m, e) =>
      if base = "GBP" && quote = "RON" then some (decToRat m e)
      else if base = "RON" && quote = "GBP" && !(m = 0 : Bool) then
        some (1 / decToRat m e)
      else none

def fxRateAppliedOf (chunk : String) : Option ℚ := applyFxRule (fxSearch chunk.data)

/-! ## Transaction chunk parsing (`_parse_transaction_chunk`) -/

structure ParsedTxn where
  txnDate : PDate
  txnTypeCode : Option String
  moneyOut : Option ℤ
  moneyIn : Option ℤ
  balance : Option ℤ
  direction : String
  amount : ℤ
  signedAmount : ℤ
  fxRateApplied : Option ℚ

/-- Python `_detect_direction`: inflow keywords anywhere in the lowercased
text, else outflow. -/
def detectDirection (text : String) : String :=
  if containsAny (toLowerStr text).data
      ["payment received", "money added", "incas", "received"] then "inflow"
  else "outflow"

/-- The 4th whitespace-delimited token of the first line if it is alphabetic
(`tokens[3].isalpha()`), else none. -/
def typeCodeOf (firstLine : String) : Option String :=
  match (splitString ' ' firstLine)[3]? with
  | some t => if t.length ≠ 0 && t.data.all Char.isAlpha then some t else none
  | none => none

/-- Second-to-last and last element of a two-or-more element list. -/
def lastTwo : ℤ → ℤ → List ℤ → ℤ × ℤ
  | a, b, [] => (a, b)
  | _, b, c :: rest => lastTwo b c rest

/-- Money assignment block of `_parse_transaction_chunk` lines 160–177:
with ≥ 2 amounts the last is the balance, the second-to-last is the primary
amount, assigned to money-in/out by the EXI/EXO type code or else by the
keyword-detected direction; with exactly 1 amount it is the primary amount
(no balance); with no amounts everything stays `None`.
Result: `(moneyOut, moneyIn, balance)`. -/
def assignMoney (tc : Option String) (detected : String) :
    List ℤ → Option ℤ × Option ℤ × Option ℤ
  | [] => (none, none, none)
  | [a] => if detected = "inflow" then (none, some a, none) else (some a, none, none)
  | a :: b :: rest =>
    let pb := lastTwo a b rest
    if tc = some "EXI" then (none, some pb.1, some pb.2)
    else if tc = some "EXO" then (some pb.1, none, some pb.2)
    else if detected = "inflow" then (none, some pb.1, some pb.2)
    else (some pb.1, none, some pb.2)

/-- Direction resolution, lines 179–188. -/
def deriveDirection (tc : Option String) (mIn mOut : Option ℤ) : String :=
  if tc = some "EXI" then "inflow"
  else if tc = some "EXO" then "outflow"
  else if mIn.isSome then "inflow"
  else if mOut.isSome then "outflow"
  else "neutral"

/-- Amount and signed amount, lines 190–198: `(amount, signed_amount)`. -/
def deriveAmountSigned (mIn mOut : Option ℤ) : ℤ × ℤ :=
  match mIn with
  | some a => (a, a)
  | none =>
    match mOut with
    | some b => (b, -b)
    | none => (0, 0)

def mkParsed (d : PDate) (tc : Option String) (detected : String)
    (amounts : List ℤ) (fx : Option ℚ) : ParsedTxn :=
  let mA := assignMoney tc detected amounts
  let dir := deriveDirection tc mA.2.1 mA.1
  let asg := deriveAmountSigned mA.2.1 mA.1
  ⟨d, tc, mA.1, mA.2.1, mA.2.2, dir, asg.1, asg.2, fx⟩

/-- `_parse_transaction_chunk`: fails (`ValueError`) when the first line does
not match `DATE_LINE` or the date tokens do not form a valid date. The
description / external-id / linked-account extractions of the source are not
embedded: no claim mentions those fields and they influence none of the
embedded ones. -/
def parseTransactionChunk (chunk : String) : Except String ParsedTxn :=
  let firstLine := (splitString '\n' chunk).headD ""
  match matchDateLine firstLine with
  | none => .error "Chunk does not start with date"
  | some dmy =>
    match parseDateTokens dmy.1 dmy.2.1 dmy.2.2 with
    | .error e => .error e
    | .ok d =>
      .ok (mkParsed d (typeCodeOf firstLine) (detectDirection chunk)
        (extractAmounts firstLine) (fxRateAppliedOf chunk))

/-! ## Chunk splitting and the per-chunk parse loop of `parse_pdf`

`parse_pdf` collects account blocks (name, currency, IBAN, period, collected
lines); only the currency and the lines feed the embedded claims, so an
account block is embedded as that pair. -/

structure AccountBlock where
  accountCurrency : String
  lines : List String

/-- One line step of `_split_transactions`: a `DATE_LINE` match starts a new
chunk (flushing the current one); other lines extend the current chunk and
are dropped before the first date line. State: `(finished chunks, current)`. -/
def splitStep (st : List (List String) × List String) (line : String) :
    List (List String) × List String :=
  if (matchDateLine line).isSome then
    (if st.2.isEmpty then st.1 else st.1 ++ [st.2], [line])
  else
    (st.1, if st.2.isEmpty then st.2 else st.2 ++ [line])

/-- `_split_transactions`: chunk boundaries at date lines, chunks re-joined
with newlines. -/
def splitTransactions (lines : List String) : List String :=
  let st := lines.foldl splitStep ([], [])
  ((if st.2.isEmpty then st.1 else st.1 ++ [st.2]).map (String.intercalate "\n"))

/-- One chunk of the `parse_pdf` loop, lines 320–334: a parsed chunk is
appended to the transactions (tagged with its block's currency), a failing
chunk is appended to the errors as `"<currency>: <message>"`. -/
def chunkStep (cur : String) (acc : List (String × ParsedTxn) × List String)
    (chunk : String) : List (String × ParsedTxn) × List String :=
  match parseTransactionChunk chunk with
  | .ok t => (acc.1 ++ [(cur, t)], acc.2)
  | .error e => (acc.1, acc.2 ++ [cur ++ ": " ++ e])

/-- The transaction/error accumulation of `parse_pdf` lines 315–334 over the
account blocks: `(transactions, parse_errors)`. -/
def parsePdfChunks (blocks : List AccountBlock) :
    List (String × ParsedTxn) × List String :=
  blocks.foldl
    (fun acc b => (splitTransactions b.lines).foldl (chunkStep b.accountCurrency) acc)
    ([], [])

/-- `parse_status` of the `parse_pdf` result, line 353. -/
def parseStatusOf (errors : List String) : String :=
  if errors.isEmpty then "success" else "partial"

/-! ## Categorizer (`categorizer.py`) -/

structure CategorizationResult where
  category : String
  confidence : ℚ
  reason : String
  needsReview : Bool

/-- Python `_normalize`: lowercase, collapse runs of whitespace to one space,
strip. Implemented over characters. -/
def collapseWs : List Char → Bool → List Char
  | [], _ => []
  | c :: cs, pendingSpace =>
    if isWs c then collapseWs cs true
    else if pendingSpace then ' ' :: c :: collapseWs cs false
    else c :: collapseWs cs false

def normalizeText (s : String) : String :=
  match collapseWs (s.data.map Char.toLower) false with
  | ' ' :: rest => String.mk rest
  | cs => String.mk cs

def isWordChar (c : Char) : Bool := c.isAlphanum || c = '_'

/-- Regex word-boundary search `\btoken\b` (the tokens used are alphanumeric,
so `re.escape` is the identity on them). -/
def wordBoundaryAux (tok : List Char) (prevIsWord : Bool) : List Char → Bool
  | [] => false
  | c :: cs =>
    (tok.isPrefixOf (c :: cs) && !prevIsWord &&
      !(match (c :: cs).drop tok.length with
        | d :: _ => isWordChar d
        | [] => false))
    || wordBoundaryAux tok (isWordChar c) cs

def wordBoundary (text tok : String) : Bool :=
  wordBoundaryAux tok.data false text.data

def VENDOR_ACCOUNTANT : List String := ["optimar consult expert"]

def VENDOR_CAR_LEASING : List String := ["bcr leasing", "aliat", "roviniete"]

def strongResult (reason category : String) : CategorizationResult :=
  ⟨category, 0.90, reason, false⟩

def vendorResult (reason category : String) : CategorizationResult :=
  ⟨category, 0.95, reason, false⟩

def weakResult (reason category : String) : CategorizationResult :=
  ⟨category, 0.70, reason, false⟩

def fallbackResult (reason category : String) : CategorizationResult :=
  ⟨category, 0.40, reason, true⟩

/-- The rule cascade of `categorize`, translated if-for-if from lines 70–122;
the normalized text is the lowercased, whitespace-collapsed concatenation of
description, to-account and from-account. -/
def categorize (description : String) (txnTypeCode : Option String)
    (direction : String) (toAccount fromAccount : Option String) :
    CategorizationResult :=
  let normalized :=
    normalizeText (description ++ " " ++ toAccount.getD "" ++ " " ++ fromAccount.getD "")
  let n := normalized.data
  if containsAny n ["money added"] then strongResult "money added" "Revenue"
  else if direction = "outflow" ∧
      containsAny n ["dividende", "dividend", "plata dividende", "profit share"] then
    strongResult "dividend keyword" "Paid dividends"
  else if direction = "outflow" ∧
      containsAny n ["trezoreria", "anaf", "impozit", "contributii", "tax"] then
    strongResult "tax keyword" "Expenses towards government (taxes)"
  else if direction = "outflow" ∧
      (wordBoundary normalized "cam" ∨ wordBoundary normalized "cass" ∨
        wordBoundary normalized "cas") then
    weakResult "tax acronym" "Expenses towards government (taxes)"
  else if direction = "outflow" ∧
      containsAny n ["salariu", "payroll", "wage", "salary", "bonus"] then
    strongResult "employee keyword" "Expenses for employees"
  else if direction = "outflow" ∧ wordBoundary normalized "cim" then
    weakResult "cim keyword" "Expenses for employees"
  else if direction = "outflow" ∧ containsAny n ["mol", "omv"] then
    strongResult "fuel keyword" "Leasing Fuel Expenses"
  else if direction = "outflow" ∧ containsAny n ["leasing"] then
    strongResult "leasing keyword" "Expenses for Car Leasing"
  else if direction = "outflow" ∧ containsAny n VENDOR_CAR_LEASING then
    vendorResult "car leasing vendor" "Expenses for Car Leasing"
  else if direction = "outflow" ∧
      containsAny n ["contabil", "contabilitate", "accounting", "expert"] then
    strongResult "accounting keyword" "Expeses for accountant"
  else if direction = "outflow" ∧ containsAny n VENDOR_ACCOUNTANT then
    vendorResult "accountant vendor" "Expeses for accountant"
  else if direction = "inflow" ∧
      (txnTypeCode = some "MOA" ∨ txnTypeCode = some "MOR") then
    strongResult "inflow type code" "Revenue"
  else if direction = "inflow" ∧
      containsAny n ["money added", "payment received", "incasare", "incasat"] then
    strongResult "inflow keyword" "Revenue"
  else if direction = "inflow" then weakResult "inflow fallback" "Revenue"
  else if direction = "outflow" then fallbackResult "outflow fallback" "Other expenses"
  else fallbackResult "neutral fallback" "Other expenses"

/-! ## Metrics aggregation (`metrics.py`)

A persisted transaction, restricted to the fields `compute_monthly_metrics`
reads. Months are keyed by `strftime("%Y-%m")` in the source, a string whose
lexicographic order coincides with the numeric order of `year*100 + month`;
the embedding uses that number as the month key. `sign_override` is a
nullable boolean column tested by Python truthiness, hence `Option Bool` with
`some true` the only truthy value; `category_override` is a nullable string
tested by truthiness, so `none` and `some ""` both fall through. -/

structure MTxn where
  accountCurrency : String
  txnDate : PDate
  direction : String
  category : String
  amount : ℚ
  needsReview : Bool
  isInternalTransfer : Bool
  fxRateApplied : Option ℚ
  amountOverride : Option ℚ
  signOverride : Option Bool
  categoryOverride : Option String
  deriving Repr, DecidableEq

def monthKey (d : PDate) : Nat := d.year * 100 + d.month

/-- Truthiness of a nullable string column (`None` and `""` are falsy). -/
def truthy : Option String → Bool
  | none => false
  | some s => !(s.isEmpty)

/-- Closure `resolve_category` of `compute_monthly_metrics` (lines 101–104):
the internal-transfer flag wins over everything; the category override
applies only under `use_overrides` and only when truthy. -/
def resolve_category (useOverrides : Bool) (txn : MTxn) : String :=
  if txn.isInternalTransfer then "Internal transfer"
  else if useOverrides && truthy txn.categoryOverride then txn.categoryOverride.getD ""
  else txn.category

/-- Closure `effective_amount` (lines 106–111): `amount_override ?? amount`,
negated under `sign_override`; note that it does not consult
`use_overrides`. -/
def effective_amount (txn : MTxn) : ℚ :=
  let base := txn.amountOverride.getD txn.amount
  if txn.signOverride = some true then -base else base

/-- `CATEGORY_MAP` (a lookup that raises `KeyError`, hence `Option`). -/
def categoryMap (c : String) : Option String :=
  ([("Revenue", "revenue_total"),
    ("Expenses towards government (taxes)", "taxes_total"),
    ("Expeses for accountant", "accountant_total"),
    ("Expenses for Car Leasing", "car_leasing_total"),
    ("Leasing Fuel Expenses", "leasing_fuel_total"),
    ("Expenses for employees", "employees_total"),
    ("Paid dividends", "dividends_total"),
    ("Other expenses", "other_expenses_total"),
    ("Internal transfer", "transfers_total")] : List (String × String)).lookup c

/-! Insertion-ordered association lists model Python dicts / defaultdicts. -/

def addAssocQ (l : List (String × ℚ)) (k : String) (v : ℚ) : List (String × ℚ) :=
  if l.any (fun p => p.1 = k) then
    l.map (fun p => if p.1 = k then (p.1, p.2 + v) else p)
  else l ++ [(k, v)]

def addAssocN (l : List (String × Nat)) (k : String) (v : Nat) : List (String × Nat) :=
  if l.any (fun p => p.1 = k) then
    l.map (fun p => if p.1 = k then (p.1, p.2 + v) else p)
  else l ++ [(k, v)]

/-- Defaultdict read: the stored value or 0. -/
def lookupQ (l : List (String × ℚ)) (k : String) : ℚ :=
  match l.lookup k with
  | some v => v
  | none => 0

/-- Python's `round(x, 2)` on the (here exact-rational) accumulated values:
round half to even at two decimals. -/
def roundHalfEvenZ (q : ℚ) : ℤ :=
  let f := ⌊q⌋
  let r := q - f
  if r < 1 / 2 then f
  else if 1 / 2 < r then f + 1
  else if f % 2 = 0 then f else f + 1

def round2 (q : ℚ) : ℚ := (roundHalfEvenZ (q * 100) : ℚ) / 100

def round4 (q : ℚ) : ℚ := (roundHalfEvenZ (q * 10000) : ℚ) / 10000

/-- Per-(currency, month) group accumulator of lines 129–148. -/
structure GroupAcc where
  totals : List (String × ℚ)
  counts : List (String × Nat)
  needsReview : Nat
  transfersIn : ℚ
  transfersOut : ℚ
  deriving Repr, DecidableEq

def emptyGroupAcc : GroupAcc := ⟨[], [], 0, 0, 0⟩

/-- One transaction of the group loop (lines 135–148); `none` models the
`KeyError` crash on a category outside `CATEGORY_MAP`. -/
def accumTxn (useOverrides : Bool) (acc : Option GroupAcc) (txn : MTxn) :
    Option GroupAcc :=
  acc.bind (fun a =>
    let category := resolve_category useOverrides txn
    let amountValue := effective_amount txn
    (categoryMap category).map (fun key =>
      let a1 : GroupAcc :=
        { a with
          totals := addAssocQ a.totals key amountValue
          counts := addAssocN a.counts category 1
          needsReview := a.needsReview + (if txn.needsReview then 1 else 0) }
      if txn.isInternalTransfer then
        if txn.direction = "inflow" then
          { a1 with transfersIn := a1.transfersIn + |amountValue| }
        else { a1 with transfersOut := a1.transfersOut + |amountValue| }
      else a1))

def accumGroup (useOverrides : Bool) (txns : List MTxn) : Option GroupAcc :=
  txns.foldl (accumTxn useOverrides) (some emptyGroupAcc)

/-- Grouping key of `grouped_by_currency`. -/
def groupKeyOf (r : MTxn) : String × Nat := (r.accountCurrency, monthKey r.txnDate)

/-- Keys of a Python dict-of-lists built by appending: first-occurrence
order, no duplicates. -/
def groupKeysAux : List MTxn → List (String × Nat) → List (String × Nat)
  | [], ks => ks
  | r :: rs, ks =>
    groupKeysAux rs (if ks.contains (groupKeyOf r) then ks else ks ++ [groupKeyOf r])

def groupKeys (rows : List MTxn) : List (String × Nat) := groupKeysAux rows []

def groupRows (rows : List MTxn) (k : String × Nat) : List MTxn :=
  rows.filter (fun r => groupKeyOf r == k)

/-- Per-month bucket of the `aggregated` defaultdict (lines 119–126). -/
structure MonthAcc where
  totals : List (String × ℚ)
  counts : List (String × Nat)
  needsReview : Nat
  transfersInRon : ℚ
  transfersOutOriginal : ℚ
  transfersOutCurrency : Option String
  deriving Repr, DecidableEq

def emptyMonthAcc : MonthAcc := ⟨[], [], 0, 0, 0, none⟩

/-- Merge one surviving group into its month's bucket (lines 154–164). -/
def mergeGroup (b : MonthAcc) (cur : String) (acc : GroupAcc) (rate : ℚ) : MonthAcc :=
  { totals := acc.totals.foldl (fun t p => addAssocQ t p.1 (p.2 * rate)) b.totals
    counts := acc.counts.foldl (fun t p => addAssocN t p.1 p.2) b.counts
    needsReview := b.needsReview + acc.needsReview
    transfersInRon := b.transfersInRon + acc.transfersIn * rate
    transfersOutOriginal :=
      if acc.transfersOut > 0 && !(cur = "RON" : Bool) then
        b.transfersOutOriginal + acc.transfersOut
      else b.transfersOutOriginal
    transfersOutCurrency :=
      if acc.transfersOut > 0 && !(cur = "RON" : Bool) then some cur
      else b.transfersOutCurrency }

/-- Update the month's entry of the insertion-ordered `aggregated` dict,
creating the defaultdict's fresh bucket on first touch. -/
def updateMonth (agg : List (Nat × MonthAcc)) (month : Nat)
    (cur : String) (acc : GroupAcc) (rate : ℚ) : List (Nat × MonthAcc) :=
  if agg.any (fun p => p.1 = month) then
    agg.map (fun p => if p.1 = month then (p.1, mergeGroup p.2 cur acc rate) else p)
  else agg ++ [(month, mergeGroup emptyMonthAcc cur acc rate)]

def mergeGroups (groups : List ((String × Nat) × GroupAcc × ℚ)) :
    List (Nat × MonthAcc) :=
  groups.foldl (fun agg g => updateMonth agg g.1.2 g.1.1 g.2.1 g.2.2) []

/-- One emitted metrics point (lines 203–226), field for field; the month key
is numeric as explained at `MTxn`. -/
structure MonthPoint where
  month : Nat
  currency : String
  revenueTotal : ℚ
  taxesTotal : ℚ
  accountantTotal : ℚ
  carLeasingTotal : ℚ
  leasingFuelTotal : ℚ
  employeesTotal : ℚ
  dividendsTotal : ℚ
  otherExpensesTotal : ℚ
  transfersTotal : ℚ
  transfersInRon : ℚ
  transfersOutOriginal : ℚ
  transfersOutCurrency : Option String
  avgFxRate : Option ℚ
  totalExpensesOperational : ℚ
  netIncomeOperational : ℚ
  netCashAfterDividends : ℚ
  countsByCategory : List (String × Nat)
  needsReviewCount : Nat
  deriving Repr, DecidableEq

/-- Emit one month (lines 167–226): `avg_fx_rate` is `None` unless
`transfers_out_original > 0`, and is also reported as `None` when the
computed rate is 0 (Python truthiness of the float); `transfers_out_ron`
likewise needs a truthy rate. -/
def emitMonth (month : Nat) (b : MonthAcc) : MonthPoint :=
  let tin := b.transfersInRon
  let tout := b.transfersOutOriginal
  let avgFx : Option ℚ := if tout > 0 then some (tin / tout) else none
  let avgTruthy : Option ℚ :=
    match avgFx with
    | some r => if r = 0 then none else some r
    | none => none
  let revenue := lookupQ b.totals "revenue_total" + tin
  let taxes := lookupQ b.totals "taxes_total"
  let accountant := lookupQ b.totals "accountant_total"
  let carLeasing := lookupQ b.totals "car_leasing_total"
  let leasingFuel := lookupQ b.totals "leasing_fuel_total"
  let employees := lookupQ b.totals "employees_total"
  let dividends := lookupQ b.totals "dividends_total"
  let otherExpenses := lookupQ b.totals "other_expenses_total"
  let transfers := lookupQ b.totals "transfers_total"
  let transfersOutRon :=
    match avgTruthy with
    | some r => if tout > 0 then tout * r else 0
    | none => 0
  let totalExpenses := taxes + accountant + carLeasing + leasingFuel + employees +
    dividends + otherExpenses + transfersOutRon
  let netIncome := revenue - totalExpenses
  { month := month
    currency := "RON"
    revenueTotal := round2 revenue
    taxesTotal := round2 taxes
    accountantTotal := round2 accountant
    carLeasingTotal := round2 carLeasing
    leasingFuelTotal := round2 leasingFuel
    employeesTotal := round2 employees
    dividendsTotal := round2 dividends
    otherExpensesTotal := round2 otherExpenses
    transfersTotal := round2 transfers
    transfersInRon := round2 tin
    transfersOutOriginal := round2 tout
    transfersOutCurrency := b.transfersOutCurrency
    avgFxRate := avgTruthy.map round4
    totalExpensesOperational := round2 totalExpenses
    netIncomeOperational := round2 netIncome
    netCashAfterDividends := round2 netIncome
    countsByCategory := b.counts
    needsReviewCount := b.needsReview }

def lookupMonth (agg : List (Nat × MonthAcc)) (month : Nat) : MonthAcc :=
  match agg.lookup month with
  | some b => b
  | none => emptyMonthAcc

/-- The `currency = "all"` branch of `compute_monthly_metrics` (lines
113–227) over an already-selected row set, with the current-day BNR rate
lookup abstracted as the `rateMap` oracle (`_build_rate_map`). The result is
`none` when some transaction's resolved category is outside `CATEGORY_MAP`
(the Python `KeyError` crash); groups whose currency has no rate are dropped
before the monthly merge (`if rate is None: continue`). -/
def survEntry (rateMap : String → Option ℚ)
    (p : (String × Nat) × Option GroupAcc) :
    Option ((String × Nat) × GroupAcc × ℚ) :=
  p.2.bind (fun a => (rateMap p.1.1).map (fun rt => (p.1, a, rt)))

/-- The all-currencies aggregation body over the grouped rows. -/
def computeAllCurrencies (rateMap : String → Option ℚ) (useOverrides : Bool)
    (rows : List MTxn) : Option (List MonthPoint) :=
  let keys := groupKeys rows
  let accs := keys.map (fun k => (k, accumGroup useOverrides (groupRows rows k)))
  if accs.all (fun p => p.2.isSome) then
    let agg := mergeGroups (accs.filterMap (survEntry rateMap))
    let months := (agg.map Prod.fst).insertionSort (fun a b => a ≤ b)
    some (months.map (fun m => emitMonth m (lookupMonth agg m)))
  else none

/-! ## Transfer reconciliation (`main.py`, `_postprocess_transfers`)

The statement's EXI/EXO transactions as stored rows (floats embedded as ℚ,
row ids and external ids as strings). The official-rate source
(`_fetch_bnr_rate(date, "GBP")` of `main.py`, cache included) is abstracted
as the pure oracle `official`. Mutation of the SQLAlchemy rows in place is
embedded as an id-directed functional update over the row list; the embedded
theorems instantiate it with pairwise-distinct ids, as the primary-key column
guarantees. -/

structure RTxn where
  id : String
  revolutTxnId : Option String
  txnTypeCode : Option String
  accountCurrency : String
  txnDate : PDate
  moneyOut : Option ℚ
  moneyIn : Option ℚ
  fxRateApplied : Option ℚ
  fxRateOfficial : Option ℚ
  fxLossRon : Option ℚ
  transferGroupId : Option String
  deriving Repr, DecidableEq

def isTransferLeg (t : RTxn) : Bool :=
  t.txnTypeCode == some "EXI" || t.txnTypeCode == some "EXO"

/-- Step (a), lines 84–85: every leg gets its external id, else its own id,
as a provisional group. -/
def provisionalGroup (t : RTxn) : RTxn :=
  if isTransferLeg t then { t with transferGroupId := some (t.revolutTxnId.getD t.id) }
  else t

def updateTxn (rows : List RTxn) (i : String) (f : RTxn → RTxn) : List RTxn :=
  rows.map (fun t => if t.id = i then f t else t)

/-- Membership test of `exi_ron` minus the already-consumed ids and the
same-date restriction (lines 88 and 93). -/
def isExiRonCandidate (used : List String) (d : PDate) (t : RTxn) : Bool :=
  t.txnTypeCode == some "EXI" && t.accountCurrency == "RON" && t.moneyIn.isSome &&
    !(used.contains t.id) && t.txnDate == d

/-- Python `min(candidates, key=...)`: first element attaining the minimal
absolute difference. -/
def minByDiff (expected : ℚ) : List RTxn → Option RTxn
  | [] => none
  | c :: cs =>
    some (cs.foldl
      (fun b x =>
        if |x.moneyIn.getD 0 - expected| < |b.moneyIn.getD 0 - expected| then x else b)
      c)

def setGroup (g : String) (t : RTxn) : RTxn := { t with transferGroupId := some g }

def setFxFields (off rate loss : ℚ) (t : RTxn) : RTxn :=
  { t with fxRateOfficial := some off, fxRateApplied := some rate, fxLossRon := some loss }

/-- Acceptance of a pair, lines 108–124: consume the inbound leg, share the
group id (outbound external id, else inbound's, else outbound row id), then
only if the official lookup succeeds write both legs' official rate, applied
rate and realized loss. -/
def pairAccepted (official : PDate → Option ℚ) (rows : List RTxn)
    (used : List String) (exo best : RTxn) (rate : ℚ) : List RTxn × List String :=
  let used' := used ++ [best.id]
  let gid := ((exo.revolutTxnId).or best.revolutTxnId).getD exo.id
  let rows' := updateTxn (updateTxn rows exo.id (setGroup gid)) best.id (setGroup gid)
  (official exo.txnDate).elim (rows', used') (fun off =>
    let loss := off * exo.moneyOut.getD 0 - best.moneyIn.getD 0
    (updateTxn (updateTxn rows' exo.id (setFxFields off rate loss)) best.id
      (setFxFields off rate loss), used'))

/-- One iteration of the outbound-leg loop, lines 92–124: same-date
unconsumed candidates, applied rate from the outbound leg or else the first
candidate carrying one, nearest-expected-amount selection, tolerance-5
acceptance. -/
def processExo (official : PDate → Option ℚ) (st : List RTxn × List String)
    (exoId : String) : List RTxn × List String :=
  (st.1.find? (fun t => t.id == exoId)).elim st (fun exo =>
    let candidates := st.1.filter (isExiRonCandidate st.2 exo.txnDate)
    if candidates.isEmpty then st
    else
      (exo.fxRateApplied.or
          (candidates.filterMap (fun t => t.fxRateApplied)).head?).elim st
        (fun rate =>
          let expected := exo.moneyOut.getD 0 * rate
          (minByDiff expected candidates).elim st (fun best =>
            if 5 < |best.moneyIn.getD 0 - expected| then st
            else pairAccepted official st.1 st.2 exo best rate)))

def isExoGbpLeg (t : RTxn) : Bool :=
  t.txnTypeCode == some "EXO" && t.accountCurrency == "GBP" && t.moneyOut.isSome

/-- `_postprocess_transfers` over one statement's EXI/EXO rows. -/
def reconcile (official : PDate → Option ℚ) (rows : List RTxn) : List RTxn :=
  let rows1 := rows.map provisionalGroup
  (((rows1.filter isExoGbpLeg).map (fun t => t.id)).foldl
    (processExo official) (rows1, [])).1

/-! ## FX rate cache (`metrics.py`, `_fetch_bnr_rate`)

Dates are embedded as proleptic day numbers (ℤ): the backward fallback steps
one calendar day at a time, which is subtraction on the day number. The
external feed (HTTP fetch + XML scrape) is the oracle `source`: `some v`
when the feed serves that date and lists the currency, `none` for any
failure. The process-wide `_BNR_RATE_CACHE` dict is the explicit `cache`
association list; the call returns the answer, the updated cache and the
list of dates it consulted the feed for (in order). -/

def fetchFrom (source : ℤ → String → Option ℚ) (c : String) :
    List ℤ → Option ℚ × List ℤ
  | [] => (none, [])
  | dt :: rest =>
    match source dt c with
    | some v => (some v, [dt])
    | none =>
      let p := fetchFrom source c rest
      (p.1, dt :: p.2)

def fallbackDates (d : ℤ) : List ℤ :=
  [d, d - 1, d - 2, d - 3, d - 4, d - 5, d - 6, d - 7, d - 8, d - 9]

def fetchBnrRate (source : ℤ → String → Option ℚ)
    (cache : List ((ℤ × String) × ℚ)) (d : ℤ) (c : String) :
    Option ℚ × List ((ℤ × String) × ℚ) × List ℤ :=
  if c = "RON" then (some 1, cache, [])
  else
    match cache.lookup (d, c) with
    | some v => (some v, cache, [])
    | none =>
      match fetchFrom source c (fallbackDates d) with
      | (some v, q) => (some v, ((d, c), v) :: cache, q)
      | (none, q) => (none, cache, q)

/-! ## Concrete instances used by counterexamples and witnesses -/

/-- The transaction of the spec's override example: `amount=100`,
`amount_override=80`, `sign_override=true`, direction outflow. -/
def c1txn : MTxn :=
  { accountCurrency := "RON", txnDate := ⟨2024, 1, 15⟩, direction := "outflow",
    category := "Other expenses", amount := 100, needsReview := false,
    isInternalTransfer := false, fxRateApplied := none, amountOverride := some 80,
    signOverride := some true, categoryOverride := none }

/-- Current-day rate map with only the RON self-rate (`_fetch_bnr_rate`
returns 1.0 for RON without a lookup). -/
def ronRateMap : String → Option ℚ := fun c => if c = "RON" then some 1 else none

/-- An internal-transfer-flagged transaction carrying a category override. -/
def c4txn : MTxn :=
  { accountCurrency := "RON", txnDate := ⟨2024, 1, 15⟩, direction := "outflow",
    category := "Other expenses", amount := 100, needsReview := false,
    isInternalTransfer := true, fxRateApplied := none, amountOverride := none,
    signOverride := none, categoryOverride := some "Revenue" }


/-- A GBP transaction whose currency has no current-day rate (C10 witness). -/
def c10gbp : MTxn :=
  { accountCurrency := "GBP", txnDate := ⟨2024, 1, 10⟩, direction := "outflow",
    category := "Other expenses", amount := 50, needsReview := true,
    isInternalTransfer := false, fxRateApplied := none, amountOverride := none,
    signOverride := none, categoryOverride := none }

/-- A RON transaction kept by the aggregation (C10 witness). -/
def c10ron : MTxn :=
  { accountCurrency := "RON", txnDate := ⟨2024, 1, 10⟩, direction := "inflow",
    category := "Revenue", amount := 200, needsReview := false,
    isInternalTransfer := false, fxRateApplied := none, amountOverride := none,
    signOverride := none, categoryOverride := none }

/-- Outbound GBP leg of a statement, carrying no applied rate of its own. -/
def c6exo1 : RTxn :=
  ⟨"exo-1", none, some "EXO", "GBP", ⟨2024, 1, 5⟩, some 100, none, none, none, none, none⟩

/-- Second outbound GBP leg, same day, applied rate 5.75 of its own. -/
def c6exo2 : RTxn :=
  ⟨"exo-2", none, some "EXO", "GBP", ⟨2024, 1, 5⟩, some 100, none, some (23 / 4), none,
    none, none⟩

/-- Inbound RON leg, same day, 575.00 RON, no applied rate of its own. -/
def c6exi : RTxn :=
  ⟨"exi-1", none, some "EXI", "RON", ⟨2024, 1, 5⟩, none, some 575, none, none, none, none⟩

/-- Official-rate oracle answering 5.80 for the legs' date. -/
def c6official : PDate → Option ℚ :=
  fun d => if d = ⟨2024, 1, 5⟩ then some (29 / 5) else none

def c6rows : List RTxn := [c6exo1, c6exo2, c6exi]

/-- Outbound GBP leg parametrized by amount and applied rate (C5). -/
def mkExo (a r : ℚ) : RTxn :=
  ⟨"exo-1", none, some "EXO", "GBP", ⟨2024, 1, 5⟩, some a, none, some r, none, none, none⟩

/-- Inbound RON leg parametrized by id and amount (C5). -/
def mkExi (i : String) (b : ℚ) : RTxn :=
  ⟨i, none, some "EXI", "RON", ⟨2024, 1, 5⟩, none, some b, none, none, none, none⟩

/-- Two rows reconciled into one transfer group: both present, with the same
non-null `transfer_group_id`. -/
def sameGroup (rows : List RTxn) (x y : String) : Bool :=
  match rows.find? (fun t => t.id == x), rows.find? (fun t => t.id == y) with
  | some a, some b => a.transferGroupId == b.transferGroupId && a.transferGroupId.isSome
  | _, _ => false

/-- Claim-side characterization of the per-chunk loop: every chunk paired
with its block's currency, in order. -/
def chunksOf (blocks : List AccountBlock) : List (String × String) :=
  blocks.flatMap (fun b => (splitTransactions b.lines).map (fun c => (b.accountCurrency, c)))

def okEntry (p : String × String) : Option (String × ParsedTxn) :=
  (parseTransactionChunk p.2).toOption.map (fun t => (p.1, t))

def errEntry (p : String × String) : Option String :=
  match parseTransactionChunk p.2 with
  | .error e => some (p.1 ++ ": " ++ e)
  | .ok _ => none

/-- The C9 example chunk of the spec. -/
def c9chunk : String := "05 Jan 2024 EXO FX Rate GBP 1 = RON 5.75 Transfer... 100.00 400.00"

/-- The C2 counterexample chunk: an EXI type code forcing direction inflow
while the first line carries no extractable amount at all. -/
def c2chunk : String := "05 Jan 2024 EXI Transfer between accounts"

/-- The parse of the C9 example chunk, spelt out: money_out 100.00 (10000
cents), balance 400.00, type code EXO, direction outflow, applied FX rate as
extracted from the `FX Rate GBP 1 = RON 5.75` fragment. -/
def c9txn : ParsedTxn :=
  ⟨⟨2024, 1, 5⟩, some "EXO", some 10000, none, some 40000, "outflow", 10000, -10000,
    fxRateAppliedOf c9chunk⟩

/-! ## Theorems -/

/-- Claim C3 (counterexample): the inflow catch-all rule yields confidence
0.70 with the needs-review flag FALSE, contradicting the claim that every
0.70-confidence rule sets needs-review to true. -/
theorem C3_counterexample :
    (categorize "Card payment" none "inflow" none none).confidence = 0.70 ∧
    (categorize "Card payment" none "inflow" none none).needsReview = false :=
  ⟨rfl, rfl⟩

lemma ite_reviewIff (c : Prop) [Decidable c] (a b : CategorizationResult)
    (ha : a.needsReview = true ↔ a.confidence = 0.40)
    (hb : b.needsReview = true ↔ b.confidence = 0.40) :
    (if c then a else b).needsReview = true ↔ (if c then a else b).confidence = 0.40 := by
  split <;> assumption

/-- Claim C3 (amended): the 0.70-confidence rules (the whole-word
tax-contribution acronym rule, the whole-word employment-contract acronym
rule, and the inflow catch-all) all return needs-review FALSE; the
needs-review flag is set exactly by the 0.40-confidence fallback rules. -/
theorem C3_amended (description : String) (txnTypeCode : Option String)
    (direction : String) (toAccount fromAccount : Option String) :
    (categorize description txnTypeCode direction toAccount fromAccount).needsReview = true ↔
    (categorize description txnTypeCode direction toAccount fromAccount).confidence = 0.40 := by
  simp only [categorize]
  repeat' apply ite_reviewIff
  all_goals norm_num [strongResult, vendorResult, weakResult, fallbackResult]

/-- Claim C4 (counterexample): with overrides in use, a transaction flagged
as an internal transfer and carrying the category override "Revenue" still
resolves to "Internal transfer": the flag, not the override, takes
precedence. -/
theorem C4_counterexample :
    resolve_category true c4txn = "Internal transfer" ∧
    resolve_category true c4txn ≠ "Revenue" := by
  constructor
  · rfl
  · decide

/-- Claim C4 (amended): the effective category of a transaction flagged as an
internal transfer is always "Internal transfer", whatever its category
override and whatever the useOverrides flag; in particular aggregation counts
such a transaction under "Internal transfer" (a category override takes
precedence only on transactions NOT flagged as internal transfers). -/
theorem C4_amended (useOverrides : Bool) (t : MTxn) (h : t.isInternalTransfer = true) :
    resolve_category useOverrides t = "Internal transfer" ∧
    (computeAllCurrencies (fun _ => some 1) useOverrides [t]).map
      (List.map MonthPoint.countsByCategory) = some [[("Internal transfer", 1)]] := by
  refine ⟨by simp [resolve_category, h], ?_⟩
  simp +decide [computeAllCurrencies, survEntry, groupKeys, groupKeysAux, groupRows, groupKeyOf,
    accumGroup, accumTxn, resolve_category, h, categoryMap, emptyGroupAcc, addAssocN,
    addAssocQ, mergeGroups, updateMonth, mergeGroup, emptyMonthAcc, lookupMonth, emitMonth,
    apply_ite GroupAcc.counts, apply_ite GroupAcc.totals, apply_ite GroupAcc.needsReview,
    List.insertionSort, List.orderedInsert, List.lookup]

/-- Claim C4 (witness): the amended claim at the concrete overridden
internal-transfer transaction. -/
theorem C4_amended_witness :
    resolve_category true c4txn = "Internal transfer" ∧
    (computeAllCurrencies (fun _ => some 1) true [c4txn]).map
      (List.map MonthPoint.countsByCategory) = some [[("Internal transfer", 1)]] :=
  C4_amended true c4txn rfl

lemma roundHalfEvenZ_intCast (n : ℤ) : roundHalfEvenZ (n : ℚ) = n := by
  simp only [roundHalfEvenZ, Int.floor_intCast, sub_self]
  norm_num

lemma round2_intCast (n : ℤ) : round2 (n : ℚ) = n := by
  have h : ((n : ℚ) * 100) = ((n * 100 : ℤ) : ℚ) := by push_cast ; ring
  rw [round2, h, roundHalfEvenZ_intCast]
  push_cast
  field_simp

/-- Claim C1 (counterexample): with `useOverrides = false`, the transaction
with `amount=100`, `amount_override=80`, `sign_override=true`, direction
outflow still contributes −80 (not −100) to its month's expense bucket:
`effective_amount` never consults `use_overrides`. -/
theorem C1_counterexample :
    (computeAllCurrencies ronRateMap false [c1txn]).map
      (List.map MonthPoint.otherExpensesTotal) = some [(-80 : ℚ)] ∧
    ¬ ((-80 : ℚ) = -100) := by
  constructor
  · have h80 : round2 ((-80 : ℚ)) = -80 := by
      have := round2_intCast (-80)
      push_cast at this
      simpa using this
    simp +decide [computeAllCurrencies, survEntry, groupKeys, groupKeysAux, groupRows, groupKeyOf,
      accumGroup, accumTxn, resolve_category, categoryMap, emptyGroupAcc, addAssocN,
      addAssocQ, mergeGroups, updateMonth, mergeGroup, emptyMonthAcc, lookupMonth,
      emitMonth, lookupQ, c1txn, ronRateMap, effective_amount, truthy,
      List.insertionSort, List.orderedInsert, List.lookup]
    norm_num [h80]
  · norm_num

/-- Claim C1 (amended): the effective amount is `amount_override ?? amount`,
negated when `sign_override` is set, and the amount/sign overrides are
honored regardless of the `useOverrides` flag (only the category override is
gated by it): the example transaction contributes −80 to its month's expense
bucket both when `useOverrides = true` and when `useOverrides = false`. -/
theorem C1_amended (useOverrides : Bool) :
    (computeAllCurrencies ronRateMap useOverrides [c1txn]).map
      (List.map MonthPoint.otherExpensesTotal) = some [(-80 : ℚ)] ∧
    effective_amount c1txn = -80 := by
  constructor
  · have h80 : round2 ((-80 : ℚ)) = -80 := by
      have := round2_intCast (-80)
      push_cast at this
      simpa using this
    cases useOverrides <;>
      · simp +decide [computeAllCurrencies, survEntry, groupKeys, groupKeysAux, groupRows, groupKeyOf,
          accumGroup, accumTxn, resolve_category, categoryMap, emptyGroupAcc, addAssocN,
          addAssocQ, mergeGroups, updateMonth, mergeGroup, emptyMonthAcc, lookupMonth,
          emitMonth, lookupQ, c1txn, ronRateMap, effective_amount, truthy,
          List.insertionSort, List.orderedInsert, List.lookup]
        norm_num [h80]
  · norm_num [effective_amount, c1txn]

/-- Claim C6 (code bug): reconciliation is not idempotent. On a statement
with two same-day GBP outbound legs (the first without an applied rate, the
second with rate 5.75) and one RON inbound leg of 575.00, the first run
pairs the second outbound leg with the inbound leg (group "exo-2"); the
second run lets the first outbound leg borrow the applied rate that the
first run wrote onto the inbound leg, steals the pair (group "exo-1"), and
rewrites the fx fields — so group ids and rates change. -/
theorem C6_not_idempotent :
    ((reconcile c6official c6rows).find? (fun t => t.id == "exi-1")).map
        RTxn.transferGroupId = some (some "exo-2") ∧
    ((reconcile c6official (reconcile c6official c6rows)).find?
        (fun t => t.id == "exi-1")).map RTxn.transferGroupId = some (some "exo-1") ∧
    reconcile c6official (reconcile c6official c6rows) ≠ reconcile c6official c6rows := by
  have h1 : ((reconcile c6official c6rows).find? (fun t => t.id == "exi-1")).map
      RTxn.transferGroupId = some (some "exo-2") := by
    norm_num +decide [reconcile, c6rows, c6exo1, c6exo2, c6exi, provisionalGroup,
      isTransferLeg, isExoGbpLeg, processExo, pairAccepted, isExiRonCandidate, minByDiff,
      updateTxn, setGroup, setFxFields, c6official, List.find?_cons_of_pos,
      List.find?_cons_of_neg, List.filter_cons, List.filterMap_cons, List.foldl_cons,
      List.foldl_nil]
  have h2 : ((reconcile c6official (reconcile c6official c6rows)).find?
      (fun t => t.id == "exi-1")).map RTxn.transferGroupId = some (some "exo-1") := by
    norm_num +decide [reconcile, c6rows, c6exo1, c6exo2, c6exi, provisionalGroup,
      isTransferLeg, isExoGbpLeg, processExo, pairAccepted, isExiRonCandidate, minByDiff,
      updateTxn, setGroup, setFxFields, c6official, List.find?_cons_of_pos,
      List.find?_cons_of_neg, List.filter_cons, List.filterMap_cons, List.foldl_cons,
      List.foldl_nil]
  refine ⟨h1, h2, fun he => ?_⟩
  rw [he] at h2
  rw [h1] at h2
  simp at h2

lemma fetchFrom_all_none (source : ℤ → String → Option ℚ) (c : String)
    (l : List ℤ) (h : ∀ x ∈ l, source x c = none) :
    fetchFrom source c l = (none, l) := by
  induction l with
  | nil => rfl
  | cons dt rest ih =>
    have hdt := h dt (List.mem_cons_self dt rest)
    have hrest := ih (fun x hx => h x (List.mem_cons_of_mem dt hx))
    simp [fetchFrom, hdt, hrest]

lemma fetchFrom_index (source : ℤ → String → Option ℚ) (c : String) :
    ∀ (l : List ℤ) (k : ℕ) (x : ℤ) (v : ℚ), l[k]? = some x →
      (∀ j : ℕ, j < k → ∀ y : ℤ, l[j]? = some y → source y c = none) →
      source x c = some v →
      fetchFrom source c l = (some v, l.take (k + 1)) := by
  intro l
  induction l with
  | nil => intro k x v hk ; simp at hk
  | cons a rest ih =>
    intro k x v hk hj hv
    cases k with
    | zero =>
      simp only [List.getElem?_cons_zero, Option.some.injEq] at hk
      subst hk
      simp [fetchFrom, hv]
    | succ k' =>
      have ha : source a c = none := by
        refine hj 0 (Nat.succ_pos k') a ?_
        simp
      have hk' : rest[k']? = some x := by simpa using hk
      have hj' : ∀ j : ℕ, j < k' → ∀ y : ℤ, rest[j]? = some y → source y c = none := by
        intro j hjk y hy
        refine hj (j + 1) (by omega) y ?_
        simpa using hy
      have hrec := ih k' x v hk' hj' hv
      simp [fetchFrom, ha, hrec]

lemma fallbackDates_index (d : ℤ) (k : ℕ) (hk : k < 10) :
    (fallbackDates d)[k]? = some (d - k) := by
  interval_cases k <;> simp [fallbackDates]

/-- Claim C8: the FX rate lookup (1) answers 1.0 for RON without consulting
the source; (2) is memoized: a successful call leaves a cache from which the
same nominal (date, currency) query is answered with no further source
consultation; (3) on a cache miss for a non-RON currency it consults the
requested date and then up to 9 prior calendar days: if all ten days fail it
reports unavailable (`none`) and caches nothing, and if day `d - k` is the
first success it returns that value, caches it under the exact requested
(date, currency) key, and has consulted exactly the days `d, d-1, ..., d-k`. -/
theorem C8_fx_lookup (source : ℤ → String → Option ℚ)
    (cache : List ((ℤ × String) × ℚ)) (d : ℤ) (c : String) :
    (fetchBnrRate source cache d "RON" = (some 1, cache, [])) ∧
    (∀ v cache' q, fetchBnrRate source cache d c = (some v, cache', q) →
      fetchBnrRate source cache' d c = (some v, cache', [])) ∧
    (¬ c = "RON" → cache.lookup (d, c) = none →
      ((∀ k : ℕ, k < 10 → source (d - k) c = none) →
        fetchBnrRate source cache d c = (none, cache, fallbackDates d)) ∧
      (∀ k : ℕ, ∀ v : ℚ, k < 10 → (∀ j : ℕ, j < k → source (d - j) c = none) →
        source (d - k) c = some v →
        fetchBnrRate source cache d c =
          (some v, ((d, c), v) :: cache, (fallbackDates d).take (k + 1)))) := by
  refine ⟨by simp [fetchBnrRate], ?_, ?_⟩
  · intro v cache' q h
    by_cases hron : c = "RON"
    · subst hron
      simp only [fetchBnrRate, if_pos rfl] at h ⊢
      obtain ⟨hv, hrest⟩ := Prod.mk.injEq .. ▸ h
      obtain ⟨hc, hq⟩ := Prod.mk.injEq .. ▸ hrest
      simp_all
    · simp only [fetchBnrRate, if_neg hron] at h ⊢
      cases hl : cache.lookup (d, c) with
      | some w =>
        rw [hl] at h
        simp only at h
        obtain ⟨hv, hrest⟩ := Prod.mk.injEq .. ▸ h
        obtain ⟨hc, hq⟩ := Prod.mk.injEq .. ▸ hrest
        subst hc
        rw [hl]
        simp_all
      | none =>
        rw [hl] at h
        cases hf : fetchFrom source c (fallbackDates d) with
        | mk r q' =>
          rw [hf] at h
          cases r with
          | some w =>
            simp only at h
            obtain ⟨hv, hrest⟩ := Prod.mk.injEq .. ▸ h
            obtain ⟨hc, hq⟩ := Prod.mk.injEq .. ▸ hrest
            subst hc
            have hlk : (((d, c), w) :: cache).lookup (d, c) = some w := by
              simp [List.lookup]
            rw [hlk]
            simp_all
          | none => simp at h
  · intro hron hmiss
    constructor
    · intro hall
      have hnone : fetchFrom source c (fallbackDates d) = (none, fallbackDates d) := by
        refine fetchFrom_all_none source c _ (fun x hx => ?_)
        have h10 : ∀ k : ℕ, k < 10 → x = d - k → source x c = none := by
          intro k hk hx'
          subst hx'
          exact hall k hk
        simp only [fallbackDates, List.mem_cons, List.not_mem_nil, or_false] at hx
        rcases hx with h | h | h | h | h | h | h | h | h | h
        · exact h10 0 (by norm_num) (by push_cast ; linarith)
        · exact h10 1 (by norm_num) (by push_cast ; linarith)
        · exact h10 2 (by norm_num) (by push_cast ; linarith)
        · exact h10 3 (by norm_num) (by push_cast ; linarith)
        · exact h10 4 (by norm_num) (by push_cast ; linarith)
        · exact h10 5 (by norm_num) (by push_cast ; linarith)
        · exact h10 6 (by norm_num) (by push_cast ; linarith)
        · exact h10 7 (by norm_num) (by push_cast ; linarith)
        · exact h10 8 (by norm_num) (by push_cast ; linarith)
        · exact h10 9 (by norm_num) (by push_cast ; linarith)
      simp [fetchBnrRate, hron, hmiss, hnone]
    · intro k v hk hj hv
      have hidx := fallbackDates_index d k hk
      have hjdx : ∀ j : ℕ, j < k → ∀ y : ℤ, (fallbackDates d)[j]? = some y →
          source y c = none := by
        intro j hjk y hy
        rw [fallbackDates_index d j (by omega)] at hy
        obtain rfl : y = d - j := by simpa using hy.symm
        exact hj j hjk
      have hr := fetchFrom_index source c (fallbackDates d) k (d - k) v hidx hjdx hv
      simp [fetchBnrRate, hron, hmiss, hr]

/-- Claim C8 (witness): a source that never answers makes the lookup consult
exactly the requested day and the 9 prior ones, give up with `none`, and
cache nothing. -/
theorem C8_fx_lookup_witness :
    fetchBnrRate (fun _ _ => none) [] 0 "GBP" = (none, [], fallbackDates 0) :=
  ((C8_fx_lookup (fun _ _ => none) [] 0 "GBP").2.2 (by decide) rfl).1 (fun _ _ => rfl)

lemma chunkFold_append (cur : String) :
    ∀ (chunks : List String) (acc : List (String × ParsedTxn) × List String),
      chunks.foldl (chunkStep cur) acc =
        (acc.1 ++ (chunks.map (fun c => (cur, c))).filterMap okEntry,
         acc.2 ++ (chunks.map (fun c => (cur, c))).filterMap errEntry) := by
  intro chunks
  induction chunks with
  | nil => intro acc ; simp
  | cons c rest ih =>
    intro acc
    simp only [List.foldl_cons, List.map_cons, List.filterMap_cons]
    cases h : parseTransactionChunk c with
    | ok t =>
      have hok : okEntry (cur, c) = some (cur, t) := by
        simp [okEntry, h, Except.toOption]
      have herr : errEntry (cur, c) = none := by simp [errEntry, h]
      rw [ih, hok, herr]
      simp [chunkStep, h]
    | error e =>
      have hok : okEntry (cur, c) = none := by simp [okEntry, h, Except.toOption]
      have herr : errEntry (cur, c) = some (cur ++ ": " ++ e) := by simp [errEntry, h]
      rw [ih, hok, herr]
      simp [chunkStep, h]

lemma parseFold_append :
    ∀ (blocks : List AccountBlock) (acc : List (String × ParsedTxn) × List String),
      blocks.foldl
          (fun acc b => (splitTransactions b.lines).foldl (chunkStep b.accountCurrency) acc)
          acc =
        (acc.1 ++ (chunksOf blocks).filterMap okEntry,
         acc.2 ++ (chunksOf blocks).filterMap errEntry) := by
  intro blocks
  induction blocks with
  | nil => intro acc ; simp [chunksOf]
  | cons b bs ih =>
    intro acc
    simp only [List.foldl_cons]
    rw [chunkFold_append b.accountCurrency (splitTransactions b.lines) acc, ih]
    simp [chunksOf, List.filterMap_append, List.append_assoc]

/-- Claim C7: parsing never throws for a malformed transaction chunk — the
per-chunk loop is total, each failing chunk is recorded in parseErrors as
`"<currency>: <message>"` and excluded from the transaction list, each
succeeding chunk is kept, and the overall status is "partial" exactly when
at least one chunk failed and "success" otherwise. -/
theorem C7_chunk_failures (blocks : List AccountBlock) :
    (parsePdfChunks blocks).1 = (chunksOf blocks).filterMap okEntry ∧
    (parsePdfChunks blocks).2 = (chunksOf blocks).filterMap errEntry ∧
    (parseStatusOf (parsePdfChunks blocks).2 = "partial" ↔
      ¬ (parsePdfChunks blocks).2 = []) ∧
    (parseStatusOf (parsePdfChunks blocks).2 = "success" ↔
      (parsePdfChunks blocks).2 = []) := by
  have h := parseFold_append blocks ([], [])
  simp only [List.nil_append] at h
  refine ⟨?_, ?_, ?_, ?_⟩
  · rw [parsePdfChunks, h]
  · rw [parsePdfChunks, h]
  · cases he : (parsePdfChunks blocks).2 with
    | nil => simp [parseStatusOf]
    | cons x xs =>
      simp only [parseStatusOf, List.isEmpty_cons, Bool.false_eq_true, if_false]
      simp
  · cases he : (parsePdfChunks blocks).2 with
    | nil => simp [parseStatusOf]
    | cons x xs =>
      simp only [parseStatusOf, List.isEmpty_cons, Bool.false_eq_true, if_false]
      simp +decide

lemma mkParsed_props (d : PDate) (tc : Option String) (det : String)
    (amounts : List ℤ) (fx : Option ℚ) :
    (¬ ((mkParsed d tc det amounts fx).moneyIn.isSome ∧
        (mkParsed d tc det amounts fx).moneyOut.isSome)) ∧
    (∀ a, (mkParsed d tc det amounts fx).moneyIn = some a →
      (mkParsed d tc det amounts fx).amount = a ∧
      (mkParsed d tc det amounts fx).signedAmount = a) ∧
    (∀ b, (mkParsed d tc det amounts fx).moneyOut = some b →
      (mkParsed d tc det amounts fx).amount = b ∧
      (mkParsed d tc det amounts fx).signedAmount = -b) ∧
    ((mkParsed d tc det amounts fx).moneyIn = none →
      (mkParsed d tc det amounts fx).moneyOut = none →
      (mkParsed d tc det amounts fx).signedAmount = 0) ∧
    ((mkParsed d tc det amounts fx).direction = "neutral" →
      (mkParsed d tc det amounts fx).moneyIn = none ∧
      (mkParsed d tc det amounts fx).moneyOut = none) ∧
    (((¬ tc = some "EXI" ∧ ¬ tc = some "EXO") ∨ 2 ≤ amounts.length) →
      (¬ (mkParsed d tc det amounts fx).direction = "neutral" →
        ((mkParsed d tc det amounts fx).moneyIn.isSome ↔
          ¬ (mkParsed d tc det amounts fx).moneyOut.isSome)) ∧
      ((mkParsed d tc det amounts fx).direction = "inflow" →
        (mkParsed d tc det amounts fx).signedAmount =
          (mkParsed d tc det amounts fx).amount) ∧
      ((mkParsed d tc det amounts fx).direction = "outflow" →
        (mkParsed d tc det amounts fx).signedAmount =
          -(mkParsed d tc det amounts fx).amount)) := by
  by_cases hexi : tc = some "EXI" <;> by_cases hexo : tc = some "EXO" <;>
    by_cases hdet : det = "inflow" <;>
    rcases amounts with _ | ⟨a, _ | ⟨b, rest⟩⟩ <;>
    simp_all [mkParsed, assignMoney, deriveDirection, deriveAmountSigned]

lemma parse_ok_mkParsed (chunk : String) (t : ParsedTxn)
    (h : parseTransactionChunk chunk = .ok t) :
    ∃ d : PDate,
      t = mkParsed d (typeCodeOf ((splitString '\n' chunk).headD ""))
        (detectDirection chunk)
        (extractAmounts ((splitString '\n' chunk).headD ""))
        (fxRateAppliedOf chunk) := by
  simp only [parseTransactionChunk] at h
  split at h
  · exact absurd h (by simp)
  · split at h
    · exact absurd h (by simp)
    · simp only [Except.ok.injEq] at h
      exact ⟨_, h.symm⟩

/-- Claim C2 (counterexample): the chunk "05 Jan 2024 EXI Transfer between
accounts" parses with direction inflow (forced by the EXI type code) while
both money-in and money-out are null, so "exactly one of money-in and
money-out is non-null when direction is not neutral" fails. -/
theorem C2_counterexample :
    (parseTransactionChunk c2chunk).toOption.map
      (fun t => (t.direction, t.moneyIn, t.moneyOut)) =
      some ("inflow", none, none) ∧
    ¬ ("inflow" = "neutral") := by
  constructor
  · decide
  · decide

/-- Claim C2 (amended): for every parsed transaction, at most one of
money-in/money-out is non-null, and signed_amount equals money-in when set,
minus money-out when set, and 0 when both are null (direction neutral forces
both null). The claim's original form — exactly one non-null when direction
is not neutral, and signed_amount = ±amount according to direction — holds
whenever the type code is not an EXI/EXO marker, or at least two amounts
were extracted from the first line; it can fail only when an EXI/EXO type
code forces the direction while fewer than two amounts are recoverable. -/
theorem C2_amended (chunk : String) (t : ParsedTxn)
    (h : parseTransactionChunk chunk = .ok t) :
    (¬ (t.moneyIn.isSome ∧ t.moneyOut.isSome)) ∧
    (∀ a, t.moneyIn = some a → t.amount = a ∧ t.signedAmount = a) ∧
    (∀ b, t.moneyOut = some b → t.amount = b ∧ t.signedAmount = -b) ∧
    (t.moneyIn = none → t.moneyOut = none → t.signedAmount = 0) ∧
    (t.direction = "neutral" → t.moneyIn = none ∧ t.moneyOut = none) ∧
    (((¬ t.txnTypeCode = some "EXI" ∧ ¬ t.txnTypeCode = some "EXO") ∨
        2 ≤ (extractAmounts ((splitString '\n' chunk).headD "")).length) →
      (¬ t.direction = "neutral" → (t.moneyIn.isSome ↔ ¬ t.moneyOut.isSome)) ∧
      (t.direction = "inflow" → t.signedAmount = t.amount) ∧
      (t.direction = "outflow" → t.signedAmount = -t.amount)) := by
  obtain ⟨d, rfl⟩ := parse_ok_mkParsed chunk t h
  exact mkParsed_props d _ _ _ _

/-- Claim C2 (witness): the amended claim instantiated at the C9 example
chunk, whose parse has money-out set and money-in null. -/
theorem C2_amended_witness :
    ¬ (c9txn.moneyIn.isSome ∧ c9txn.moneyOut.isSome) :=
  (C2_amended c9chunk c9txn rfl).1

lemma lastTwo_spec : ∀ (rest : List ℤ) (a b : ℤ),
    (a :: b :: rest).getLast? = some (lastTwo a b rest).2 ∧
    (a :: b :: rest)[(a :: b :: rest).length - 2]? = some (lastTwo a b rest).1 := by
  intro rest
  induction rest with
  | nil => intro a b ; constructor <;> simp [lastTwo]
  | cons c rs ih =>
    intro a b
    refine ⟨?_, ?_⟩
    · rw [lastTwo, List.getLast?_cons_cons]
      exact (ih b c).1
    · rw [lastTwo]
      have hlen : (a :: b :: c :: rs).length - 2 = ((b :: c :: rs).length - 2) + 1 := by
        simp
      rw [hlen, List.getElem?_cons_succ]
      exact (ih b c).2

lemma mkParsed_amounts (d : PDate) (tc : Option String) (det : String)
    (amounts : List ℤ) (fx : Option ℚ) :
    (2 ≤ amounts.length →
      (mkParsed d tc det amounts fx).balance = amounts.getLast? ∧
      ((mkParsed d tc det amounts fx).moneyIn.or (mkParsed d tc det amounts fx).moneyOut) =
        amounts[amounts.length - 2]?) ∧
    (amounts.length = 1 →
      (mkParsed d tc det amounts fx).balance = none ∧
      ((mkParsed d tc det amounts fx).moneyIn.or (mkParsed d tc det amounts fx).moneyOut) =
        amounts.head?) := by
  rcases amounts with _ | ⟨a, _ | ⟨b, rest⟩⟩
  · simp [mkParsed, assignMoney]
  · by_cases hdet : det = "inflow" <;> simp [mkParsed, assignMoney, hdet]
  · have hs := lastTwo_spec rest a b
    by_cases hexi : tc = some "EXI" <;> by_cases hexo : tc = some "EXO" <;>
      by_cases hdet : det = "inflow" <;>
      simp_all [mkParsed, assignMoney]

/-- Claim C9: with two or more amounts extracted from a chunk's first line,
the last is the running balance and the second-to-last is the primary money
amount (the one of money-in/money-out that is set); with exactly one, it is
the primary amount and the balance is absent. In particular the chunk
"05 Jan 2024 EXO FX Rate GBP 1 = RON 5.75 Transfer... 100.00 400.00" parses
to money_out = 100.00 (10000 cents), balance = 400.00 (40000 cents), type
code EXO, fx_rate_applied = 5.75 and direction outflow. -/
theorem C9_amount_positions :
    (∀ (chunk : String) (t : ParsedTxn), parseTransactionChunk chunk = .ok t →
      (2 ≤ (extractAmounts ((splitString '\n' chunk).headD "")).length →
        t.balance = (extractAmounts ((splitString '\n' chunk).headD "")).getLast? ∧
        (t.moneyIn.or t.moneyOut) =
          (extractAmounts ((splitString '\n' chunk).headD ""))[
            (extractAmounts ((splitString '\n' chunk).headD "")).length - 2]?) ∧
      ((extractAmounts ((splitString '\n' chunk).headD "")).length = 1 →
        t.balance = none ∧
        (t.moneyIn.or t.moneyOut) =
          (extractAmounts ((splitString '\n' chunk).headD "")).head?)) ∧
    (parseTransactionChunk c9chunk = .ok c9txn ∧ c9txn.moneyOut = some 10000 ∧
      c9txn.moneyIn = none ∧ c9txn.balance = some 40000 ∧
      c9txn.txnTypeCode = some "EXO" ∧ c9txn.direction = "outflow" ∧
      c9txn.fxRateApplied = some (5.75 : ℚ)) := by
  constructor
  · intro chunk t h
    obtain ⟨d, rfl⟩ := parse_ok_mkParsed chunk t h
    exact mkParsed_amounts d _ _ _ _
  · refine ⟨rfl, rfl, rfl, rfl, rfl, rfl, ?_⟩
    show fxRateAppliedOf c9chunk = some (5.75 : ℚ)
    have hs : fxSearch c9chunk.data = some ("GBP", "RON", ['5', '.', '7', '5']) := by
      decide
    have hd : parseDecimal ['5', '.', '7', '5'] = some (575, 2) := by decide
    rw [fxRateAppliedOf, hs]
    simp only [applyFxRule, hd]
    norm_num [decToRat]

/-- Claim C5: for a GBP outbound transfer leg with resolved applied rate r,
the reconciler pairs it with the same-date unconsumed RON inbound leg
minimizing the absolute gap to money_out × r, and accepts the pair exactly
when that gap is at most 5: with two same-day inbound candidates of which
the first is strictly nearer, the nearer one is paired iff its gap is ≤ 5
and the farther one is never paired with this leg. -/
theorem C5_nearest (a r b1 b2 : ℚ) (h : |b1 - a * r| < |b2 - a * r|) :
    (sameGroup (reconcile (fun _ => none) [mkExo a r, mkExi "exi-a" b1, mkExi "exi-b" b2])
        "exo-1" "exi-a" = true ↔ |b1 - a * r| ≤ 5) ∧
    sameGroup (reconcile (fun _ => none) [mkExo a r, mkExi "exi-a" b1, mkExi "exi-b" b2])
        "exo-1" "exi-b" = false := by
  have hnot : ¬ (|b2 - a * r| < |b1 - a * r|) := not_lt.2 h.le
  by_cases h5 : |b1 - a * r| ≤ 5
  · have h5' : ¬ (5 < |b1 - a * r|) := not_lt.2 h5
    constructor
    · simp +decide [reconcile, provisionalGroup, isTransferLeg, isExoGbpLeg, processExo,
        pairAccepted, isExiRonCandidate, minByDiff, updateTxn, setGroup, setFxFields,
        sameGroup, mkExo, mkExi, hnot, h5', h5, Option.or, Option.elim,
        List.find?_cons_of_pos, List.find?_cons_of_neg, List.filter_cons,
        List.filterMap_cons, List.foldl_cons, List.foldl_nil]
    · simp +decide [reconcile, provisionalGroup, isTransferLeg, isExoGbpLeg, processExo,
        pairAccepted, isExiRonCandidate, minByDiff, updateTxn, setGroup, setFxFields,
        sameGroup, mkExo, mkExi, hnot, h5', h5, Option.or, Option.elim,
        List.find?_cons_of_pos, List.find?_cons_of_neg, List.filter_cons,
        List.filterMap_cons, List.foldl_cons, List.foldl_nil]
  · have h5' : 5 < |b1 - a * r| := not_le.1 h5
    constructor
    · simp +decide [reconcile, provisionalGroup, isTransferLeg, isExoGbpLeg, processExo,
        pairAccepted, isExiRonCandidate, minByDiff, updateTxn, setGroup, setFxFields,
        sameGroup, mkExo, mkExi, hnot, h5', h5, Option.or, Option.elim,
        List.find?_cons_of_pos, List.find?_cons_of_neg, List.filter_cons,
        List.filterMap_cons, List.foldl_cons, List.foldl_nil]
    · simp +decide [reconcile, provisionalGroup, isTransferLeg, isExoGbpLeg, processExo,
        pairAccepted, isExiRonCandidate, minByDiff, updateTxn, setGroup, setFxFields,
        sameGroup, mkExo, mkExi, hnot, h5', h5, Option.or, Option.elim,
        List.find?_cons_of_pos, List.find?_cons_of_neg, List.filter_cons,
        List.filterMap_cons, List.foldl_cons, List.foldl_nil]

/-- Claim C5 (witness): a 100.00 GBP outflow at applied rate 5.75 (expected
575.00 RON) pairs with the same-day 578.00 RON inflow (gap 3 ≤ 5) and must
not pair with the 610.00 RON inflow (gap 35). -/
theorem C5_nearest_witness :
    sameGroup (reconcile (fun _ => none)
        [mkExo 100 (23 / 4), mkExi "exi-a" 578, mkExi "exi-b" 610]) "exo-1" "exi-a" = true ∧
    sameGroup (reconcile (fun _ => none)
        [mkExo 100 (23 / 4), mkExi "exi-a" 578, mkExi "exi-b" 610]) "exo-1" "exi-b" = false := by
  have h := C5_nearest 100 (23 / 4) 578 610 (by norm_num)
  exact ⟨h.1.mpr (by norm_num), h.2⟩

lemma contains_filter_keyQ (c : String) (ks : List (String × Nat)) (k : String × Nat)
    (hq : (k.1 == c) = false) :
    (ks.filter (fun p => !(p.1 == c))).contains k = ks.contains k := by
  refine Bool.eq_iff_iff.mpr ?_
  simp only [List.contains, List.elem_iff, List.mem_filter]
  simp [hq]

lemma groupKeysAux_filter (c : String) :
    ∀ (rows : List MTxn) (ks : List (String × Nat)),
      groupKeysAux (rows.filter (fun t => !(t.accountCurrency == c)))
          (ks.filter (fun p => !(p.1 == c))) =
        (groupKeysAux rows ks).filter (fun p => !(p.1 == c)) := by
  intro rows
  induction rows with
  | nil => intro ks ; rfl
  | cons r rs ih =>
    intro ks
    by_cases hc : (r.accountCurrency == c) = true
    · rw [List.filter_cons_of_neg (by simp [hc])]
      have hrhs : groupKeysAux (r :: rs) ks =
          groupKeysAux rs (if ks.contains (groupKeyOf r) then ks else ks ++ [groupKeyOf r]) :=
        rfl
      rw [hrhs]
      have hks : (if ks.contains (groupKeyOf r) then ks else ks ++ [groupKeyOf r]).filter
          (fun p => !(p.1 == c)) = ks.filter (fun p => !(p.1 == c)) := by
        split
        · rfl
        · rw [List.filter_append]
          have hnil : [groupKeyOf r].filter (fun p => !(p.1 == c)) = [] := by
            simp [groupKeyOf, hc]
          rw [hnil, List.append_nil]
      rw [← ih, hks]
    · have hcf : (r.accountCurrency == c) = false := by simpa using hc
      rw [List.filter_cons_of_pos (by simp [hcf])]
      have hq : ((groupKeyOf r).1 == c) = false := hcf
      have hlhs : groupKeysAux (r :: rs.filter (fun t => !(t.accountCurrency == c)))
          (ks.filter (fun p => !(p.1 == c))) =
          groupKeysAux (rs.filter (fun t => !(t.accountCurrency == c)))
            (if (ks.filter (fun p => !(p.1 == c))).contains (groupKeyOf r) then
              ks.filter (fun p => !(p.1 == c))
            else ks.filter (fun p => !(p.1 == c)) ++ [groupKeyOf r]) := rfl
      have hrhs : groupKeysAux (r :: rs) ks =
          groupKeysAux rs (if ks.contains (groupKeyOf r) then ks else ks ++ [groupKeyOf r]) :=
        rfl
      rw [hlhs, hrhs, contains_filter_keyQ c ks _ hq]
      have hacc : (if ks.contains (groupKeyOf r) then ks.filter (fun p => !(p.1 == c))
            else ks.filter (fun p => !(p.1 == c)) ++ [groupKeyOf r]) =
          (if ks.contains (groupKeyOf r) then ks else ks ++ [groupKeyOf r]).filter
            (fun p => !(p.1 == c)) := by
        split
        · rfl
        · rw [List.filter_append]
          congr 1
          simp [hq]
      rw [hacc, ih]

lemma groupRows_filter (c : String) (rows : List MTxn) (k : String × Nat)
    (hq : (k.1 == c) = false) :
    groupRows (rows.filter (fun t => !(t.accountCurrency == c))) k = groupRows rows k := by
  rw [groupRows, groupRows, List.filter_filter]
  refine List.filter_congr (fun t _ => ?_)
  by_cases hk : (groupKeyOf t == k) = true
  · have hkey : groupKeyOf t = k := beq_iff_eq.mp hk
    have hcur : (t.accountCurrency == c) = false := by
      have h1 : t.accountCurrency = k.1 := congrArg Prod.fst hkey
      rw [h1]
      exact hq
    simp [hk, hcur]
  · have hkf : (groupKeyOf t == k) = false := by simpa using hk
    simp [hkf]

lemma foldl_accumTxn_isSome (useOverrides : Bool) :
    ∀ (txns : List MTxn) (acc : GroupAcc),
      (∀ t ∈ txns, (categoryMap (resolve_category useOverrides t)).isSome) →
      (List.foldl (accumTxn useOverrides) (some acc) txns).isSome := by
  intro txns
  induction txns with
  | nil => intro acc _ ; rfl
  | cons t ts ih =>
    intro acc hv
    have ht := hv t (List.mem_cons_self t ts)
    obtain ⟨key, hkey⟩ := Option.isSome_iff_exists.mp ht
    rw [List.foldl_cons]
    have hstep : ∃ acc', accumTxn useOverrides (some acc) t = some acc' := by
      simp [accumTxn, hkey]
    obtain ⟨acc', hacc'⟩ := hstep
    rw [hacc']
    exact ih acc' (fun x hx => hv x (List.mem_cons_of_mem t hx))

lemma accumGroup_isSome (useOverrides : Bool) (txns : List MTxn)
    (hv : ∀ t ∈ txns, (categoryMap (resolve_category useOverrides t)).isSome) :
    (accumGroup useOverrides txns).isSome :=
  foldl_accumTxn_isSome useOverrides txns emptyGroupAcc hv

lemma surv_filter_keys (rateMap : String → Option ℚ) (useOverrides : Bool)
    (c : String) (rows : List MTxn) (hr : rateMap c = none) :
    ∀ ks : List (String × Nat),
      (ks.map (fun k => (k, accumGroup useOverrides (groupRows rows k)))).filterMap
          (survEntry rateMap) =
        (((ks.filter (fun p => !(p.1 == c))).map (fun k =>
            (k, accumGroup useOverrides
              (groupRows (rows.filter (fun t => !(t.accountCurrency == c))) k)))).filterMap
          (survEntry rateMap)) := by
  intro ks
  induction ks with
  | nil => rfl
  | cons k ksr ih =>
    by_cases hq : (k.1 == c) = true
    · have hkc : k.1 = c := beq_iff_eq.mp hq
      have hnone : survEntry rateMap (k, accumGroup useOverrides (groupRows rows k)) = none := by
        cases accumGroup useOverrides (groupRows rows k) <;> simp [survEntry, hkc, hr]
      rw [List.map_cons, List.filterMap_cons, hnone,
        List.filter_cons_of_neg (by simp [hq]), ih]
    · have hqf : (k.1 == c) = false := by simpa using hq
      have hrows := groupRows_filter c rows k hqf
      rw [List.map_cons, List.filterMap_cons, List.filter_cons_of_pos (by simp [hqf]),
        List.map_cons, List.filterMap_cons, hrows, ih]

/-- Claim C10: in the all-currencies aggregation, when the current-day rate
for some account currency is unavailable, every (currency, month) group in
that currency is omitted from the output entirely — converted totals,
category counts, needs-review counts and transfer volumes alike: the result
equals the aggregation over the row set with that currency's transactions
removed. -/
theorem C10_rate_none_omits (rateMap : String → Option ℚ) (useOverrides : Bool)
    (c : String) (rows : List MTxn) (hr : rateMap c = none)
    (hv : ∀ t ∈ rows, (categoryMap (resolve_category useOverrides t)).isSome) :
    computeAllCurrencies rateMap useOverrides rows =
      computeAllCurrencies rateMap useOverrides
        (rows.filter (fun t => !(t.accountCurrency == c))) := by
  have hkeys : groupKeys (rows.filter (fun t => !(t.accountCurrency == c))) =
      (groupKeys rows).filter (fun p => !(p.1 == c)) := by
    have h := groupKeysAux_filter c rows []
    simpa [groupKeys] using h
  have hallL : ((groupKeys rows).map
      (fun k => (k, accumGroup useOverrides (groupRows rows k)))).all
        (fun p => p.2.isSome) = true := by
    rw [List.all_eq_true]
    intro p hp
    obtain ⟨k, hk, rfl⟩ := List.mem_map.mp hp
    exact accumGroup_isSome useOverrides _
      (fun t ht => hv t (List.mem_of_mem_filter ht))
  have hallR : (((groupKeys rows).filter (fun p => !(p.1 == c))).map
      (fun k => (k, accumGroup useOverrides
        (groupRows (rows.filter (fun t => !(t.accountCurrency == c))) k)))).all
        (fun p => p.2.isSome) = true := by
    rw [List.all_eq_true]
    intro p hp
    obtain ⟨k, hk, rfl⟩ := List.mem_map.mp hp
    exact accumGroup_isSome useOverrides _
      (fun t ht => hv t (List.mem_of_mem_filter (List.mem_of_mem_filter ht)))
  have hsurv := surv_filter_keys rateMap useOverrides c rows hr (groupKeys rows)
  simp only [computeAllCurrencies, hkeys, hallL, hallR, if_true, hsurv]


/-- Claim C10 (witness): with a rate map lacking GBP, aggregating a GBP
outflow together with a RON inflow equals aggregating the RON inflow alone. -/
theorem C10_rate_none_omits_witness :
    computeAllCurrencies ronRateMap false [c10gbp, c10ron] =
      computeAllCurrencies ronRateMap false
        ([c10gbp, c10ron].filter (fun t => !(t.accountCurrency == "GBP"))) :=
  C10_rate_none_omits ronRateMap false "GBP" [c10gbp, c10ron] rfl (by decide)

end FS
